import Mathlib

/-!
Shallow embedding of the ISS jobs server (src/issjobs.py).

Python strings are modelled as lists of characters; the filesystem state
that each operation touches is passed explicitly.  Fallible operations
(Python exceptions, process exit) return Option or Except.
-/

/-- Python strings are modelled as lists of characters. -/
abbrev Str := List Char

/-- Whitespace characters stripped by the Python str.strip method
(ASCII whitespace: space, tab, newline, carriage return, vertical tab,
form feed). -/
def pyIsSpace (c : Char) : Bool :=
  c == ' ' || c == '\t' || c == '\n' || c == '\x0d' || c == '\x0b' || c == '\x0c'

/-- Python str.strip with no argument: removes leading and trailing
whitespace. -/
def pyStrip (s : Str) : Str :=
  ((s.dropWhile pyIsSpace).reverse.dropWhile pyIsSpace).reverse

/-- Python str.strip with a set of characters: removes leading and trailing
characters drawn from that set. -/
def pyStripChars (chars : Str) (s : Str) : Str :=
  ((s.dropWhile (fun c => chars.contains c)).reverse.dropWhile
    (fun c => chars.contains c)).reverse

/-- Python substring test: pyIn needle hay models the expression
needle in hay on Python strings. -/
def pyIn (needle : Str) : Str → Bool
  | [] => needle.isEmpty
  | c :: rest => needle.isPrefixOf (c :: rest) || pyIn needle rest

/-- Startup path checks performed by check_password (issjobs.py lines
33-37): the process exits if the configured password-file path contains
the source directory as a substring, or if the path stripped of leading
and trailing dots and slashes contains no slash.  Both exits are merged
into one boolean; check_password returns none when they fire. -/
def pathOk (currentDir passwordFile : Str) : Bool :=
  !(pyIn currentDir passwordFile) &&
    (pyIn ['/'] (pyStripChars ['/'] (pyStripChars ['.'] passwordFile)))

/-- check_password (issjobs.py lines 32-40): after the startup path
checks, reads the password file and compares the submitted secret with
the file content stripped of leading and trailing whitespace.  The file
content is passed in as fileContent; none models the process exiting at
the path checks. -/
def check_password (currentDir passwordFile fileContent p : Str) : Option Bool :=
  if pathOk currentDir passwordFile then some (p == pyStrip fileContent) else none

/-!
Model of the fragment of Python regular expressions used by fix_ini
(issjobs.py lines 165-167).  The patterns built there contain only
literal characters and backslash escapes, so a compiled pattern is a
list of single-character items.  As in the Python re module, a pattern
ending in a lone backslash fails to compile with the message
"bad escape (end of pattern)".
-/

/-- One compiled pattern element: a literal character or an escaped
character. -/
inductive PatItem where
  | lit (c : Char)
  | esc (c : Char)
deriving DecidableEq

/-- Pattern compilation for the fragment used by fix_ini: a backslash
escapes the following character; a trailing lone backslash is a
compile-time error (none), exactly as in the Python re module. -/
def parsePattern : Str → Option (List PatItem)
  | [] => some []
  | ['\\'] => none
  | '\\' :: c :: rest => (parsePattern rest).map (fun l => PatItem.esc c :: l)
  | c :: rest => (parsePattern rest).map (fun l => PatItem.lit c :: l)

/-- Matching of one pattern item against one character.  Literal items
match case-insensitively because fix_ini passes the IGNORECASE flag;
an escaped character (here only the escaped backslash occurs) matches
itself. -/
def itemMatch : PatItem → Char → Bool
  | PatItem.lit c, d => c.toLower == d.toLower
  | PatItem.esc c, d => c == d

/-- Whether a compiled pattern matches at the start of a string. -/
def matchPrefix : List PatItem → Str → Bool
  | [], _ => true
  | _ :: _, [] => false
  | i :: is, c :: cs => itemMatch i c && matchPrefix is cs

/-- Leftmost non-overlapping substitution of a compiled pattern, as done
by re.sub: scan left to right, replace each match and resume after it.
The patterns used by fix_ini are non-empty; the max with 1 only keeps
the recursion well-founded. -/
def subAll (items : List PatItem) (repl : Str) : Str → Str
  | [] => []
  | c :: rest =>
    if matchPrefix items (c :: rest) then
      repl ++ subAll items repl ((c :: rest).drop (max items.length 1))
    else
      c :: subAll items repl rest
termination_by s => s.length
decreasing_by
  all_goals simp [List.length_drop]

/-- The re.sub call: compiles the pattern, failing with the re.error
message for a trailing lone backslash, and otherwise substitutes every
match.  The replacement strings used by fix_ini contain no backslash,
so replacement-escape processing is not modelled. -/
def pySub (pattern repl s : Str) : Except Str Str :=
  match parsePattern pattern with
  | none => Except.error ("bad escape (end of pattern)".toList)
  | some items => Except.ok (subAll items repl s)

/-- Python str.replace: exact, case-sensitive, leftmost non-overlapping
replacement of one substring by another.  The patterns used here are
non-empty; the max with 1 only keeps the recursion well-founded. -/
def pyReplace (pat repl : Str) : Str → Str
  | [] => []
  | c :: rest =>
    if pat.isPrefixOf (c :: rest) then
      repl ++ pyReplace pat repl ((c :: rest).drop (max pat.length 1))
    else
      c :: pyReplace pat repl rest
termination_by s => s.length
decreasing_by
  all_goals simp [List.length_drop]

/-- The UNC-style pattern string built on issjobs.py line 166:
the Python expression composing two backslashes, the server name and a
single trailing backslash. -/
def uncPattern (servername : Str) : Str :=
  '\\' :: '\\' :: servername ++ ['\\']

/-- The smb pattern string built on issjobs.py line 167. -/
def smbPattern (servername : Str) : Str :=
  "smb://".toList ++ servername ++ ['/']

/-- The substitution loop of fix_ini (issjobs.py lines 165-167): for
each registry pair, apply the UNC substitution and then the smb
substitution, propagating any pattern-compilation error as the Python
exception would propagate. -/
def subServers : List (Str × Str) → Str → Except Str Str
  | [], contents => Except.ok contents
  | (servername, serverpath) :: rest, contents =>
    match pySub (uncPattern servername) serverpath contents with
    | Except.error e => Except.error e
    | Except.ok c1 =>
      match pySub (smbPattern servername) serverpath c1 with
      | Except.error e => Except.error e
      | Except.ok c2 => subServers rest c2

/-- The warning banner prepended by fix_ini (issjobs.py line 169). -/
def BANNER : Str :=
  (String.toList ";;; WARNING - This file is autogenerated from the real config file config.original.ini.  Paths and escape sequences have been modified.\n\n\n")

/-- fix_ini (issjobs.py lines 156-171) as a function of the server
registry and the uploaded file contents: run the substitution loop,
replace every remaining double backslash by a forward slash, and
prepend the banner.  An error models the uncaught Python exception. -/
def fix_ini (servers : List (Str × Str)) (contents : Str) : Except Str Str :=
  match subServers servers contents with
  | Except.error e => Except.error e
  | Except.ok c => Except.ok (BANNER ++ pyReplace ['\\', '\\'] ['/'] c)

/-!
Job namer (issjobs.py lines 71-82) and the helpers it needs.  The
current local time and the set of directories already present in the
output directory are explicit inputs.
-/

/-- Decimal digit character for a value below ten, as produced by the
Python str conversion of an integer. -/
def digitChar : Nat → Char
  | 0 => '0' | 1 => '1' | 2 => '2' | 3 => '3' | 4 => '4'
  | 5 => '5' | 6 => '6' | 7 => '7' | 8 => '8' | _ => '9'

/-- Decimal digits of a natural number, most significant first, as
produced by the Python str conversion of an integer. -/
def natDigits (n : Nat) : Str :=
  if _h : n < 10 then [digitChar n]
  else natDigits (n / 10) ++ [digitChar (n % 10)]
termination_by n
decreasing_by
  exact Nat.div_lt_self (by omega) (by omega)

/-- Zero-padding to a fixed width, as done by the strftime format
directives used in jobname. -/
def padNat (width n : Nat) : Str :=
  List.replicate (width - (natDigits n).length) '0' ++ natDigits n

/-- A point in local time, the value of datetime.datetime.today(). -/
structure Timestamp where
  year : Nat
  month : Nat
  day : Nat
  hour : Nat
  minute : Nat
  second : Nat

/-- The strftime format used on issjobs.py line 75: year, month, day,
hour, minute and second, zero padded, in the layout
YYYY-MM-DD_HH-MM-SS. -/
def tsFormat (t : Timestamp) : Str :=
  padNat 4 t.year ++ ['-'] ++ padNat 2 t.month ++ ['-'] ++ padNat 2 t.day
    ++ ['_'] ++ padNat 2 t.hour ++ ['-'] ++ padNat 2 t.minute
    ++ ['-'] ++ padNat 2 t.second

/-- The sanitisation on issjobs.py line 72: the re.sub call removes
every character that is not a letter, a digit or an underscore. -/
def sanitizeLabel (s : Str) : Str :=
  s.filter (fun c => c.isAlphanum || c == '_')

/-- The collision loop of jobname (issjobs.py lines 76-80): while the
candidate directory exists, append the next integer suffix to the base
name.  The source loop terminates because the output directory holds
finitely many directories and the candidates are pairwise distinct;
the fuel argument bounds the iterations for the same reason. -/
def jobnameLoop (existing : List Str) (base : Str) : Nat → Str → Nat → Str
  | 0, jname, _ => jname
  | fuel + 1, jname, suffix =>
    if existing.contains jname then
      jobnameLoop existing base fuel (base ++ natDigits suffix) (suffix + 1)
    else jname

/-- jobname (issjobs.py lines 71-82): strip the label to letters,
digits and underscores, default an empty result to the literal job,
prepend the formatted current time joined by an underscore, and resolve
collisions with integer suffixes.  The commented-out mkdir on line 81
is absent: the function only computes a name. -/
def jobname (existing : List Str) (now : Timestamp) (chosen : Str) : Str :=
  let sanitised0 := sanitizeLabel chosen
  let sanitised1 := if sanitised0 = [] then "job".toList else sanitised0
  let base := tsFormat now ++ '_' :: sanitised1
  jobnameLoop existing base (existing.length + 1) base 0

/-!
Job status reader (issjobs.py lines 108-128 and 181-198).  The output
directory is modelled as an association list from job names to the
files present in each job directory.
-/

/-- Files of one job directory: the log contents when output.log
exists, and the presence of the two marker files. -/
structure JobFiles where
  log : Option Str
  success : Bool
  complete : Bool
deriving DecidableEq

/-- Lexicographic comparison of character lists, the order used by the
Python sorted builtin on strings. -/
def strLe : Str → Str → Bool
  | [], _ => true
  | _ :: _, [] => false
  | c :: cs, d :: ds => if c = d then strLe cs ds else decide (c < d)

/-- Python sorted on a list of strings. -/
def sortStr (l : List Str) : List Str :=
  l.mergeSort strLe

/-- succeeded (issjobs.py lines 118-122): glob the success markers,
sort and reverse the paths, take the directory-name component, and
return it sorted.  Sorting paths below a fixed output directory orders
them exactly as their job-name components. -/
def succeeded (jobs : List (Str × JobFiles)) : List Str :=
  let successful := (sortStr ((jobs.filter (fun j => j.2.success)).map (fun j => j.1))).reverse
  sortStr successful

/-- failed (issjobs.py lines 124-128): the source body is
character-for-character the body of succeeded, globbing the success
markers rather than the complete markers. -/
def failed (jobs : List (Str × JobFiles)) : List Str :=
  let successful := (sortStr ((jobs.filter (fun j => j.2.success)).map (fun j => j.1))).reverse
  sortStr successful

/-- Responses produced by the request handlers. -/
inductive Response where
  | urgent
  | redirectMsg (m : Str)
  | viewRedirect (job : Str)
  | crash
  | page (logContents jobName status : Str)
deriving DecidableEq

/-- The sanitisation on issjobs.py lines 187 and 215: the re.sub call
removes every character that is not a letter, a digit, an underscore or
a hyphen. -/
def sanitizeView (s : Str) : Str :=
  s.filter (fun c => c.isAlphanum || c == '_' || c == '-')

/-- The single-record branch of view (issjobs.py lines 184-198): reject
a job argument that does not equal its own sanitised form, then open
the log (an absent log or job directory raises, modelled as crash) and
report the status string computed from the marker files: success when
the success marker exists, error when only the complete marker exists,
and the empty running status otherwise. -/
def viewSingle (jobArg : Str) (jobs : List (Str × JobFiles)) : Response :=
  let job_safe := sanitizeView jobArg
  if job_safe ≠ jobArg then Response.redirectMsg ("Invalid file".toList)
  else
    match jobs.lookup job_safe with
    | none => Response.crash
    | some jf =>
      match jf.log with
      | none => Response.crash
      | some contents =>
        Response.page contents job_safe
          (if jf.success then "success".toList
           else if jf.complete then "error".toList
           else [])

/-!
Job launcher (issjobs.py lines 174-177).  The shell command launched by
run is: the analysis tool, with output appended to the log, followed by
touch of the success marker joined with a shell and-operator, followed
by touch of the complete marker joined with a shell or-operator.  Shell
commands are modelled as state transformers returning an exit status;
the state is the pair of marker files of the fresh job directory, each
holding its contents when present.
-/

/-- Marker files of a job directory: none when the file is absent,
otherwise its contents.  A fresh job directory has both absent. -/
structure Markers where
  success : Option Str
  complete : Option Str
deriving DecidableEq

/-- A shell command: a function of the marker state returning the new
state and the exit status. -/
def ShellCmd : Type := Markers → Markers × Nat

/-- The analysis process invoked by run: it writes only to the log, so
the marker state is unchanged; its exit status is a parameter. -/
def issCmd (exitStatus : Nat) : ShellCmd := fun m => (m, exitStatus)

/-- touch of the success marker: creates the file empty and succeeds. -/
def touchSuccess : ShellCmd := fun m => ({ m with success := some [] }, 0)

/-- touch of the complete marker: creates the file empty and succeeds. -/
def touchComplete : ShellCmd := fun m => ({ m with complete := some [] }, 0)

/-- The shell and-operator: run the second command only when the first
exits with status zero. -/
def shellAnd (a b : ShellCmd) : ShellCmd := fun m =>
  let r := a m
  if r.2 = 0 then b r.1 else r

/-- The shell or-operator: run the second command only when the first
exits with a nonzero status. -/
def shellOr (a b : ShellCmd) : ShellCmd := fun m =>
  let r := a m
  if r.2 = 0 then r else b r.1

/-- The marker-writing tail of the command spawned by run (issjobs.py
line 177), as a function of the exit status of the analysis process:
the and-operator binds tighter than the or-operator, so the command is
the analysis process and touch success, or else touch complete. -/
def runMarkers (exitStatus : Nat) : ShellCmd :=
  shellOr (shellAnd (issCmd exitStatus) touchSuccess) touchComplete

/-!
The submit handler (issjobs.py lines 138-154).  The server state
gathers the attempt log and the contents of the output directory; every
external input of the handler is an explicit argument.
-/

/-- Mutable filesystem state touched by submit: the password attempt
log (one entry per line) and, under the output directory, the list of
job directories and the files they contain. -/
structure ServerState where
  attemptLog : List Str
  outputDirs : List Str
  outputFiles : List (Str × Str)
deriving DecidableEq

/-- The line appended by log_incorrect_password (issjobs.py lines
53-56): date, client address and the rejected secret. -/
def logLine (now : Timestamp) (ip p : Str) : Str :=
  "date=".toList ++ tsFormat now ++ ", ip=".toList ++ ip
    ++ ", password=".toList ++ p ++ ['\n']

/-- The first line written to the log file by run (issjobs.py lines
175-176). -/
def logHeader (name person : Str) (now : Timestamp) : Str :=
  "Started output for job ".toList ++ name ++ " user ".toList ++ person
    ++ " at ".toList ++ tsFormat now ++ ['\n']

/-- confirm_password_log_not_full (issjobs.py lines 63-66): counts the
lines of the attempt log and requires fewer than one hundred. -/
def confirm_password_log_not_full (attemptLog : List Str) : Bool :=
  attemptLog.length < 100

/-- submit (issjobs.py lines 138-154).  In source order: reject with
the urgent message when the attempt log is full; check the password,
logging and redirecting on mismatch (a failing startup path check exits
the process, modelled as crash); allocate the job name; reject when the
uploaded filename is empty; only then create the job directory, save
the original upload, run fix_ini (whose uncaught exception is modelled
as crash, after the directory and original file were written) and write
the log header; finally redirect to the view of the new job. -/
def submit (st : ServerState) (currentDir passwordFile pwFileContent : Str)
    (now : Timestamp) (servers : List (Str × Str)) (ip : Str)
    (pass jobLabel username filename iniContent : Str) : ServerState × Response :=
  if ¬ confirm_password_log_not_full st.attemptLog then
    (st, Response.urgent)
  else
    match check_password currentDir passwordFile pwFileContent pass with
    | none => (st, Response.crash)
    | some ok =>
      if ¬ ok then
        ({ st with attemptLog := st.attemptLog ++ [logLine now ip pass] },
          Response.redirectMsg ("Password incorrect".toList))
      else
        let name := jobname st.outputDirs now jobLabel
        if filename = [] then (st, Response.redirectMsg ("No file uploaded".toList))
        else
          let st1 : ServerState :=
            { st with
              outputDirs := st.outputDirs ++ [name]
              outputFiles := st.outputFiles
                ++ [(name ++ "/config.original.ini".toList, iniContent)] }
          match fix_ini servers iniContent with
          | Except.error _ => (st1, Response.crash)
          | Except.ok newContents =>
            let st2 : ServerState :=
              { st1 with
                outputFiles := st1.outputFiles
                  ++ [(name ++ "/config.ini".toList, newContents),
                      (name ++ "/output.log".toList, logHeader name username now)] }
            (st2, Response.viewRedirect name)

/-!
Theorems settling the claims.
-/

/-- Claim C1.  The claim states that the config rewriter substitutes
the UNC-style and smb spellings of each registered share and that
rewriting the text with two leading backslashes, fileserver and the
data path under the registry mapping fileserver to /mnt/data yields
/mnt/data at the substituted location.  On the code this is false for a
different reason than a wrong substitution: the UNC pattern built on
line 166 ends in a lone backslash, so the re.sub call raises the
re.error bad escape (end of pattern) and no substitution happens at
all.  This theorem evaluates the embedded fix_ini at the failing input
from the claim. -/
theorem fix_ini_raises_on_unc_pattern :
    fix_ini [("fileserver".toList, "/mnt/data".toList)]
        ("\\\\fileserver\\data\\x.bin".toList)
      = Except.error ("bad escape (end of pattern)".toList) := rfl

/-- Claim C3.  Whenever the attempt log holds at least one hundred
lines, submit answers with the urgent-system-error response and changes
nothing, regardless of every other input including the submitted
password. -/
theorem submit_rejects_when_log_full (st : ServerState)
    (currentDir passwordFile pwFileContent : Str) (now : Timestamp)
    (servers : List (Str × Str)) (ip pass jobLabel username filename iniContent : Str)
    (h : 100 ≤ st.attemptLog.length) :
    submit st currentDir passwordFile pwFileContent now servers ip pass
        jobLabel username filename iniContent = (st, Response.urgent) := by
  have hfull : ¬ confirm_password_log_not_full st.attemptLog = true := by
    simp [confirm_password_log_not_full]
    omega
  unfold submit
  rw [if_pos hfull]

/-- Witness for claim C3: with exactly one hundred recorded attempts
and the correct password (the stored secret file holds the password and
a trailing newline), the submission is still rejected with the urgent
response. -/
theorem submit_rejects_when_log_full_witness :
    check_password ("/home/iss/src".toList) ("/etc/iss/password.txt".toList)
        ("hunter2\n".toList) ("hunter2".toList) = some true ∧
    submit ⟨List.replicate 100 ("x".toList), [], []⟩ ("/home/iss/src".toList)
        ("/etc/iss/password.txt".toList) ("hunter2\n".toList) ⟨2022, 6, 1, 0, 0, 0⟩
        [] ("ip".toList) ("hunter2".toList) ("j".toList) ("u".toList)
        ("f.ini".toList) ("[x]".toList)
      = (⟨List.replicate 100 ("x".toList), [], []⟩, Response.urgent) :=
  ⟨by decide,
    submit_rejects_when_log_full _ _ _ _ _ _ _ _ _ _ _ _ (by simp)⟩

/-- Claim C4.  The failed listing helper returns exactly the list the
succeeded listing helper returns, on every state of the output
directory, because both bodies glob the success marker. -/
theorem failed_eq_succeeded (jobs : List (Str × JobFiles)) :
    failed jobs = succeeded jobs := rfl

/-- Claim C8.  For every exit status of the analysis process, the shell
command spawned by run creates exactly one marker file in the fresh job
directory: the success marker, empty, when the status is zero, and
otherwise the complete marker, empty. -/
theorem run_markers_exactly_one (exitStatus : Nat) :
    (runMarkers exitStatus ⟨none, none⟩).1
        = (if exitStatus = 0 then ⟨some [], none⟩ else ⟨none, some []⟩ : Markers) ∧
    (runMarkers exitStatus ⟨none, none⟩).1.success.isSome
        ≠ (runMarkers exitStatus ⟨none, none⟩).1.complete.isSome := by
  by_cases he : exitStatus = 0 <;>
    simp [runMarkers, shellOr, shellAnd, issCmd, touchSuccess, touchComplete, he]

/-- Counterexample for claim C2.  The claim asserts the status is
succeeded whenever the success marker exists, but the view opens the
log before checking the markers: in a job directory with the success
marker and no log file, the handler raises instead of reporting any
status. -/
theorem view_status_counterexample :
    viewSingle ("job1".toList) [(("job1".toList), ⟨none, true, false⟩)]
        = Response.crash ∧
    (⟨none, true, false⟩ : JobFiles).success = true := by
  exact ⟨rfl, rfl⟩

/-- Claim C2 as amended: for every job directory in which the log file
exists, the single-job status is the stated function of marker-file
existence, success first.  Running is rendered as the empty status
string, succeeded as success and failed as error. -/
theorem view_status_of_markers (jobArg : Str) (jobs : List (Str × JobFiles))
    (jf : JobFiles) (l : Str)
    (hvalid : sanitizeView jobArg = jobArg)
    (hlook : jobs.lookup jobArg = some jf)
    (hlog : jf.log = some l) :
    (jf.success = true → viewSingle jobArg jobs
        = Response.page l jobArg ("success".toList)) ∧
    (jf.success = false → jf.complete = true → viewSingle jobArg jobs
        = Response.page l jobArg ("error".toList)) ∧
    (jf.success = false → jf.complete = false → viewSingle jobArg jobs
        = Response.page l jobArg []) := by
  have hv : viewSingle jobArg jobs
      = Response.page l jobArg
          (if jf.success then "success".toList
           else if jf.complete then "error".toList else []) := by
    simp [viewSingle, hvalid, hlook, hlog]
  refine ⟨fun hs => ?_, fun hs hc => ?_, fun hs hc => ?_⟩ <;> rw [hv]
  · simp [hs]
  · simp [hs, hc]
  · simp [hs, hc]

/-- Witness for the amended claim C2: a job with a log and only the
success marker reports the success status. -/
theorem view_status_of_markers_witness :
    viewSingle ("job1".toList)
        [(("job1".toList), ⟨some ("L".toList), true, false⟩)]
      = Response.page ("L".toList) ("job1".toList) ("success".toList) :=
  (view_status_of_markers ("job1".toList)
    [(("job1".toList), ⟨some ("L".toList), true, false⟩)]
    ⟨some ("L".toList), true, false⟩ ("L".toList)
    (by decide) rfl rfl).1 rfl

/-- Claim C6.  Every requested job identifier that does not equal its
own sanitised form is rejected with the invalid-file redirect, and the
answer does not depend on the filesystem at all, so no file is
touched. -/
theorem view_rejects_unsanitized (jobArg : Str) (jobs : List (Str × JobFiles))
    (h : sanitizeView jobArg ≠ jobArg) :
    viewSingle jobArg jobs = Response.redirectMsg ("Invalid file".toList) ∧
    viewSingle jobArg jobs = viewSingle jobArg [] := by
  constructor <;> simp [viewSingle, h]

/-- Witness for claim C6: the path-traversal identifier from the claim
differs from its sanitised form and is rejected even on a filesystem
holding a job, with the same answer as on the empty filesystem. -/
theorem view_rejects_unsanitized_witness :
    sanitizeView ("../../etc/passwd".toList) ≠ ("../../etc/passwd".toList) ∧
    viewSingle ("../../etc/passwd".toList)
        [(("job1".toList), ⟨some [], false, false⟩)]
      = Response.redirectMsg ("Invalid file".toList) :=
  ⟨by decide,
    (view_rejects_unsanitized ("../../etc/passwd".toList)
      [(("job1".toList), ⟨some [], false, false⟩)] (by decide)).1⟩

/-- Dropping a predicate-prefix never lengthens a list. -/
theorem length_dropWhile_le (q : Char → Bool) (l : Str) :
    (l.dropWhile q).length ≤ l.length := by
  induction l with
  | nil => simp
  | cons a l ih =>
    by_cases hq : q a = true
    · simp only [List.dropWhile, hq]
      simp
      omega
    · simp [List.dropWhile, hq]

/-- Dropping a predicate-prefix from a list ending in a fixed character
either consumes everything or keeps that final character. -/
theorem dropWhile_append_last (q : Char → Bool) (l : Str) (c : Char) :
    List.dropWhile q (l ++ [c]) = [] ∨
      ∃ l', List.dropWhile q (l ++ [c]) = l' ++ [c] := by
  induction l with
  | nil =>
    by_cases hq : q c = true
    · left
      simp [List.dropWhile, hq]
    · right
      exact ⟨[], by simp [List.dropWhile, hq]⟩
  | cons a l ih =>
    by_cases hq : q a = true
    · simpa [List.dropWhile, hq] using ih
    · right
      exact ⟨a :: l, by simp [List.dropWhile, hq]⟩

/-- Stripping a string that ends in a newline yields a string no longer
than the part before the newline. -/
theorem pyStrip_trailing_newline_length (p : Str) :
    (pyStrip (p ++ ['\n'])).length ≤ p.length := by
  unfold pyStrip
  rcases dropWhile_append_last pyIsSpace p '\n' with h | ⟨l', h⟩
  · rw [h]
    simp
  · have hlen : l'.length + 1 ≤ p.length + 1 := by
      have := congrArg List.length h
      simp at this
      have hle := length_dropWhile_le pyIsSpace (p ++ ['\n'])
      simp at hle
      omega
    rw [h]
    have hrev : (l' ++ ['\n']).reverse = '\n' :: l'.reverse := by simp
    rw [hrev]
    have hnl : List.dropWhile pyIsSpace ('\n' :: l'.reverse)
        = List.dropWhile pyIsSpace l'.reverse := by
      simp [List.dropWhile, pyIsSpace]
    rw [hnl]
    have := length_dropWhile_le pyIsSpace l'.reverse
    simp at this ⊢
    omega

/-- A string ending in a newline never equals its own stripped form. -/
theorem append_newline_ne_pyStrip (p : Str) :
    p ++ ['\n'] ≠ pyStrip (p ++ ['\n']) := by
  intro heq
  have hlen := congrArg List.length heq
  have hle := pyStrip_trailing_newline_length p
  simp at hlen
  omega

/-- Claim C10.  Under path checks that let the process start,
authentication succeeds exactly when the submitted secret equals the
stored file content stripped of leading and trailing whitespace; a
stored secret with a trailing newline authenticates its stripped form,
and a submitted secret that itself ends in the newline never
authenticates. -/
theorem check_password_strip (currentDir passwordFile fileContent p : Str)
    (h : pathOk currentDir passwordFile = true) :
    (check_password currentDir passwordFile fileContent p = some true
        ↔ p = pyStrip fileContent) ∧
    check_password currentDir passwordFile ("hunter2\n".toList)
        ("hunter2".toList) = some true ∧
    check_password currentDir passwordFile (p ++ ['\n']) (p ++ ['\n'])
        = some false := by
  refine ⟨?_, ?_, ?_⟩
  · simp [check_password, h]
  · simp [check_password, h]
    decide
  · simp [check_password, h]
    exact append_newline_ne_pyStrip p

/-- Witness for claim C10 at a concrete configuration and secret. -/
theorem check_password_strip_witness :
    pathOk ("/home/iss/src".toList) ("/etc/iss/password.txt".toList) = true ∧
    ((check_password ("/home/iss/src".toList) ("/etc/iss/password.txt".toList)
          ("abc\n".toList) ("abc".toList) = some true
        ↔ ("abc".toList : Str) = pyStrip ("abc\n".toList)) ∧
      check_password ("/home/iss/src".toList) ("/etc/iss/password.txt".toList)
          ("hunter2\n".toList) ("hunter2".toList) = some true ∧
      check_password ("/home/iss/src".toList) ("/etc/iss/password.txt".toList)
          ("abc".toList ++ ['\n']) ("abc".toList ++ ['\n']) = some false) :=
  ⟨by decide,
    check_password_strip ("/home/iss/src".toList)
      ("/etc/iss/password.txt".toList) ("abc\n".toList) ("abc".toList)
      (by decide)⟩

/-- Claim C9.  Every submission rejected by a validation check (attempt
log full, wrong password, or empty uploaded filename) leaves the output
directory untouched: no job directory is created and no file is written
there.  Name allocation happens before the filename check yet creates
nothing, and all writes happen only after every check passed. -/
theorem submit_rejection_frame (st : ServerState)
    (currentDir passwordFile pwFileContent : Str) (now : Timestamp)
    (servers : List (Str × Str)) (ip pass jobLabel username filename iniContent : Str)
    (h : 100 ≤ st.attemptLog.length
      ∨ check_password currentDir passwordFile pwFileContent pass = some false
      ∨ filename = []) :
    (submit st currentDir passwordFile pwFileContent now servers ip pass
        jobLabel username filename iniContent).1.outputDirs = st.outputDirs ∧
    (submit st currentDir passwordFile pwFileContent now servers ip pass
        jobLabel username filename iniContent).1.outputFiles = st.outputFiles := by
  unfold submit
  by_cases hfull : confirm_password_log_not_full st.attemptLog = true
  · rw [if_neg (by simp [hfull])]
    cases hcp : check_password currentDir passwordFile pwFileContent pass with
    | none => exact ⟨rfl, rfl⟩
    | some ok =>
      cases ok with
      | false => exact ⟨rfl, rfl⟩
      | true =>
        have hfn : filename = [] := by
          rcases h with h1 | h2 | h3
          · exact absurd hfull (by simp [confirm_password_log_not_full]; omega)
          · rw [hcp] at h2
            exact absurd h2 (by simp)
          · exact h3
        rw [if_pos hfn]
        exact ⟨rfl, rfl⟩
  · rw [if_pos (by simp [hfull])]
    exact ⟨rfl, rfl⟩

/-- Witness for claim C9: a submission with the correct password but an
empty uploaded filename is rejected and leaves the pre-existing job
directory listing and file listing unchanged. -/
theorem submit_rejection_frame_witness :
    (submit ⟨[], ["d1".toList], [(("d1/output.log".toList), [])]⟩
        ("/home/iss/src".toList) ("/etc/iss/password.txt".toList)
        ("hunter2\n".toList) ⟨2022, 6, 1, 0, 0, 0⟩ [] ("ip".toList)
        ("hunter2".toList) ("lbl".toList) ("u".toList) [] ("ini".toList)).1.outputDirs
      = ["d1".toList] ∧
    (submit ⟨[], ["d1".toList], [(("d1/output.log".toList), [])]⟩
        ("/home/iss/src".toList) ("/etc/iss/password.txt".toList)
        ("hunter2\n".toList) ⟨2022, 6, 1, 0, 0, 0⟩ [] ("ip".toList)
        ("hunter2".toList) ("lbl".toList) ("u".toList) [] ("ini".toList)).1.outputFiles
      = [(("d1/output.log".toList), [])] :=
  submit_rejection_frame ⟨[], ["d1".toList], [(("d1/output.log".toList), [])]⟩
    ("/home/iss/src".toList) ("/etc/iss/password.txt".toList)
    ("hunter2\n".toList) ⟨2022, 6, 1, 0, 0, 0⟩ [] ("ip".toList)
    ("hunter2".toList) ("lbl".toList) ("u".toList) [] ("ini".toList)
    (Or.inr (Or.inr rfl))

/-- The characters the claim allows in an allocated job name: letters,
digits, underscore and hyphen. -/
def allowedChar (c : Char) : Bool :=
  c.isAlphanum || c == '_' || c == '-'

/-- Single decimal digit characters are digits. -/
theorem digitChar_isDigit (n : Nat) : (digitChar n).isDigit = true := by
  unfold digitChar
  split <;> decide

/-- Every character of a decimal representation is a digit. -/
theorem natDigits_digits (n : Nat) : ∀ c ∈ natDigits n, c.isDigit = true := by
  induction n using Nat.strong_induction_on with
  | _ n ih =>
    unfold natDigits
    split
    · intro c hc
      simp at hc
      subst hc
      exact digitChar_isDigit n
    · intro c hc
      rw [List.mem_append] at hc
      rcases hc with hc | hc
      · have hlt : n / 10 < n := Nat.div_lt_self (by omega) (by omega)
        exact ih (n / 10) hlt c hc
      · simp at hc
        subst hc
        exact digitChar_isDigit (n % 10)

/-- Digits are allowed job-name characters. -/
theorem isDigit_allowed (c : Char) (h : c.isDigit = true) : allowedChar c = true := by
  simp [allowedChar, Char.isAlphanum, h]

/-- Every character of a zero-padded decimal field is a digit. -/
theorem padNat_digits (w n : Nat) : ∀ c ∈ padNat w n, c.isDigit = true := by
  intro c hc
  rw [padNat, List.mem_append] at hc
  rcases hc with hc | hc
  · have := List.eq_of_mem_replicate hc
    subst this
    decide
  · exact natDigits_digits n c hc

/-- Every character of the formatted timestamp is allowed in a job
name. -/
theorem tsFormat_allowed (t : Timestamp) : ∀ c ∈ tsFormat t, allowedChar c = true := by
  intro c hc
  simp only [tsFormat, List.append_assoc, List.mem_append, List.mem_singleton] at hc
  rcases hc with hc | hc | hc | hc | hc | hc | hc | hc | hc | hc | hc
  all_goals first
    | (exact isDigit_allowed c (padNat_digits _ _ c hc))
    | (subst hc; decide)

/-- The collision loop returns either its starting candidate or the
base with a decimal suffix appended. -/
theorem jobnameLoop_form (existing : List Str) (base : Str) :
    ∀ fuel jname suffix, jobnameLoop existing base fuel jname suffix = jname
      ∨ ∃ k, jobnameLoop existing base fuel jname suffix = base ++ natDigits k := by
  intro fuel
  induction fuel with
  | zero => intro jname suffix; left; rfl
  | succ n ih =>
    intro jname suffix
    unfold jobnameLoop
    split
    · rcases ih (base ++ natDigits suffix) (suffix + 1) with h | ⟨k, h⟩
      · right; exact ⟨suffix, h⟩
      · right; exact ⟨k, h⟩
    · left; rfl

/-- Claim C5.  Every allocated job name is non-empty, contains only
letters, digits, underscores and hyphens, and decomposes as the
formatted current local time, an underscore, the label stripped to
letters, digits and underscores (defaulting to the literal job when the
stripped label is empty), and a decimal collision suffix. -/
theorem jobname_wellformed (existing : List Str) (now : Timestamp) (chosen : Str) :
    jobname existing now chosen ≠ [] ∧
    (∀ c ∈ jobname existing now chosen, allowedChar c = true) ∧
    ∃ tail : Str,
      jobname existing now chosen
          = tsFormat now
            ++ '_' :: ((if sanitizeLabel chosen = [] then "job".toList
                        else sanitizeLabel chosen) ++ tail)
        ∧ ∀ c ∈ tail, c.isDigit = true := by
  have hform := jobnameLoop_form existing
    (tsFormat now ++ '_' :: (if sanitizeLabel chosen = [] then "job".toList
      else sanitizeLabel chosen))
    (existing.length + 1)
    (tsFormat now ++ '_' :: (if sanitizeLabel chosen = [] then "job".toList
      else sanitizeLabel chosen))
    0
  have hjob : ∃ tail : Str,
      jobname existing now chosen
          = tsFormat now
            ++ '_' :: ((if sanitizeLabel chosen = [] then "job".toList
                        else sanitizeLabel chosen) ++ tail)
        ∧ ∀ c ∈ tail, c.isDigit = true := by
    rcases hform with h | ⟨k, h⟩
    · refine ⟨[], ?_, by simp⟩
      rw [jobname]
      simp only [h, List.append_nil]
    · refine ⟨natDigits k, ?_, natDigits_digits k⟩
      rw [jobname]
      simp only [h, List.cons_append, List.append_assoc]
  rcases hjob with ⟨tail, heq, htail⟩
  refine ⟨?_, ?_, ⟨tail, heq, htail⟩⟩
  · rw [heq]
    intro hnil
    have := congrArg List.length hnil
    simp at this
  · intro c hc
    rw [heq] at hc
    simp only [List.mem_append, List.mem_cons] at hc
    rcases hc with hc | hc | hc | hc
    · exact tsFormat_allowed now c hc
    · subst hc; decide
    · by_cases hemp : sanitizeLabel chosen = []
      · rw [if_pos hemp] at hc
        have : c ∈ ("job".toList : Str) := hc
        fin_cases this <;> decide
      · rw [if_neg hemp] at hc
        rw [sanitizeLabel, List.mem_filter] at hc
        have hpred := hc.2
        simp only [Bool.or_eq_true, beq_iff_eq] at hpred
        simp only [allowedChar, Bool.or_eq_true, beq_iff_eq]
        tauto
    · exact isDigit_allowed c (htail c hc)

/-- Unfolding of pyReplace on a cons cell. -/
theorem pyReplace_cons (pat repl : Str) (c : Char) (rest : Str) :
    pyReplace pat repl (c :: rest) =
      if pat.isPrefixOf (c :: rest) then
        repl ++ pyReplace pat repl ((c :: rest).drop (max pat.length 1))
      else c :: pyReplace pat repl rest := by
  rw [pyReplace]

/-- The double-backslash replacement on a string starting with the
pattern: emit one slash and continue after the pair. -/
theorem replaceBB_match (rest : Str) :
    pyReplace ['\\','\\'] ['/'] ('\\' :: '\\' :: rest)
      = '/' :: pyReplace ['\\','\\'] ['/'] rest := by
  rw [pyReplace_cons]
  rw [if_pos (by simp [List.isPrefixOf])]
  simp

/-- The double-backslash replacement on a string not starting with the
pattern: keep the head verbatim. -/
theorem replaceBB_nomatch (c : Char) (rest : Str)
    (h : ¬ List.isPrefixOf ['\\','\\'] (c :: rest) = true) :
    pyReplace ['\\','\\'] ['/'] (c :: rest)
      = c :: pyReplace ['\\','\\'] ['/'] rest := by
  rw [pyReplace_cons, if_neg h]

/-- A two-character repetition occurring in a cons cell either starts
at the head or occurs in the tail. -/
theorem infix_pair_cons {x z : Char} {X : Str} (h : [x, x] <:+: z :: X) :
    (z = x ∧ X.head? = some x) ∨ [x, x] <:+: X := by
  obtain ⟨s, t, hst⟩ := h
  cases s with
  | nil =>
    simp at hst
    left
    refine ⟨hst.1.symm, ?_⟩
    rw [← hst.2]
    rfl
  | cons a s' =>
    right
    simp at hst
    exact ⟨s', t, by simpa using hst.2⟩

/-- If the double-backslash pattern starts a cons cell, the first two
characters are backslashes. -/
theorem bb_prefix_shape (c : Char) (rest : Str)
    (hp : List.isPrefixOf ['\\','\\'] (c :: rest) = true) :
    c = '\\' ∧ ∃ r', rest = '\\' :: r' := by
  cases rest with
  | nil => simp [List.isPrefixOf] at hp
  | cons d r' =>
    simp [List.isPrefixOf] at hp
    exact ⟨hp.1.symm, r', by rw [hp.2]⟩

/-- The double-backslash replacement never moves a backslash to the
front of a string that did not start with one. -/
theorem replaceBB_head (rest : Str) (h : rest.head? ≠ some '\\') :
    (pyReplace ['\\','\\'] ['/'] rest).head? ≠ some '\\' := by
  cases rest with
  | nil => rw [pyReplace]; simp
  | cons d r' =>
    have hd : d ≠ '\\' := by
      intro hdd
      exact h (by simp [hdd])
    have hnp : ¬ List.isPrefixOf ['\\','\\'] (d :: r') = true := by
      simp [List.isPrefixOf]
      intro hh
      exact absurd hh.symm hd
    rw [replaceBB_nomatch d r' hnp]
    simp [hd]

/-- After the double-backslash replacement no double backslash
remains. -/
theorem replaceBB_no_bb :
    ∀ t : Str, ¬ (['\\','\\'] <:+: pyReplace ['\\','\\'] ['/'] t) := by
  suffices H : ∀ n, ∀ t : Str, t.length ≤ n →
      ¬ (['\\','\\'] <:+: pyReplace ['\\','\\'] ['/'] t) by
    exact fun t => H t.length t le_rfl
  intro n
  induction n with
  | zero =>
    intro t ht
    have : t = [] := by
      cases t with
      | nil => rfl
      | cons a b => simp at ht
    subst this
    rw [pyReplace]
    intro hinf
    obtain ⟨s, u, hsu⟩ := hinf
    simp at hsu
  | succ n ih =>
    intro t ht
    cases t with
    | nil =>
      rw [pyReplace]
      intro hinf
      obtain ⟨s, u, hsu⟩ := hinf
      simp at hsu
    | cons c rest =>
      simp only [List.length_cons] at ht
      by_cases hp : List.isPrefixOf ['\\','\\'] (c :: rest) = true
      · obtain ⟨hc, r', hr⟩ := bb_prefix_shape c rest hp
        subst hc
        subst hr
        rw [replaceBB_match]
        intro hinf
        rcases infix_pair_cons hinf with ⟨h1, _⟩ | h2
        · exact absurd h1 (by decide)
        · have hlen : r'.length ≤ n := by
            simp at ht
            omega
          exact ih r' hlen h2
      · rw [replaceBB_nomatch c rest hp]
        intro hinf
        rcases infix_pair_cons hinf with ⟨h1, h2⟩ | h2
        · subst h1
          have hrh : rest.head? ≠ some '\\' := by
            intro hh
            apply hp
            cases rest with
            | nil => simp at hh
            | cons d r' =>
              simp at hh
              subst hh
              simp [List.isPrefixOf]
          exact replaceBB_head rest hrh h2
        · exact ih rest (by omega) h2

/-- The double-backslash replacement leaves a string without the
pattern verbatim. -/
theorem replaceBB_id (t : Str) :
    ¬ (['\\','\\'] <:+: t) → pyReplace ['\\','\\'] ['/'] t = t := by
  induction t with
  | nil => intro _; rw [pyReplace]
  | cons c rest ih =>
    intro h
    have hp : ¬ List.isPrefixOf ['\\','\\'] (c :: rest) = true := by
      intro hpf
      obtain ⟨hc, r', hr⟩ := bb_prefix_shape c rest hpf
      subst hc
      subst hr
      exact h ⟨[], r', by simp⟩
    rw [replaceBB_nomatch c rest hp]
    rw [ih (fun hinf => h (List.infix_cons hinf))]

/-- Claim C7.  Whenever the share-path substitution phase completes with
some text, fix_ini returns the banner followed by that text with every
remaining double-backslash pair replaced by one forward slash; the
result of the replacement holds no double backslash, and text without
any double backslash is preserved verbatim. -/
theorem fix_ini_normalizes_backslashes (servers : List (Str × Str)) (t t' : Str)
    (h : subServers servers t = Except.ok t') :
    fix_ini servers t
        = Except.ok (BANNER ++ pyReplace ['\\','\\'] ['/'] t') ∧
    ¬ (['\\','\\'] <:+: pyReplace ['\\','\\'] ['/'] t') ∧
    (¬ (['\\','\\'] <:+: t') → pyReplace ['\\','\\'] ['/'] t' = t') := by
  refine ⟨?_, replaceBB_no_bb t', replaceBB_id t'⟩
  unfold fix_ini
  rw [h]

/-- Witness for claim C7 on the empty registry, where the substitution
phase is the identity, at a text holding one double backslash. -/
theorem fix_ini_normalizes_backslashes_witness :
    subServers [] ("a\\\\b\\c".toList) = Except.ok ("a\\\\b\\c".toList) ∧
    (fix_ini [] ("a\\\\b\\c".toList)
        = Except.ok (BANNER ++ pyReplace ['\\','\\'] ['/'] ("a\\\\b\\c".toList)) ∧
      ¬ (['\\','\\'] <:+: pyReplace ['\\','\\'] ['/'] ("a\\\\b\\c".toList)) ∧
      (¬ (['\\','\\'] <:+: ("a\\\\b\\c".toList))
        → pyReplace ['\\','\\'] ['/'] ("a\\\\b\\c".toList) = ("a\\\\b\\c".toList))) :=
  ⟨rfl, fix_ini_normalizes_backslashes [] ("a\\\\b\\c".toList) ("a\\\\b\\c".toList) rfl⟩

/-- Witness for claim C4 at a concrete output directory holding one
succeeded and one failed job. -/
theorem failed_eq_succeeded_witness :
    failed [(("j1".toList), ⟨some [], true, false⟩),
            (("j2".toList), ⟨some [], false, true⟩)]
      = succeeded [(("j1".toList), ⟨some [], true, false⟩),
                   (("j2".toList), ⟨some [], false, true⟩)] :=
  failed_eq_succeeded _

/-- Witness for claim C5: a concrete label with disallowed characters
yields a non-empty name. -/
theorem jobname_wellformed_witness :
    jobname [] ⟨2022, 6, 1, 12, 30, 5⟩ ("my job!".toList) ≠ [] :=
  (jobname_wellformed [] ⟨2022, 6, 1, 12, 30, 5⟩ ("my job!".toList)).1

/-- Witness for claim C8 at exit status zero: only the success marker
is created, empty. -/
theorem run_markers_exactly_one_witness :
    (runMarkers 0 ⟨none, none⟩).1 = (⟨some [], none⟩ : Markers) :=
  (run_markers_exactly_one 0).1
